import Mathlib

/-!
Verification of `haiku-format-bot` (`src/formatchecker/core.py`): a shallow
embedding of the patch-segment reformatting and comment-mapping engine, with
theorems about the class-region detector, the per-file orchestration decisions,
and the comment mapper.

Lines of a file are modelled as `String`s without their trailing newline, which
is the representation the line-anchored regular expressions of the source
operate on.
-/

namespace FormatBot

/-- Modelled from the spec (the `models` module is not part of the sources):
the classification tag of a reformat segment. -/
inductive ReformatType where
  | INSERTION
  | MODIFICATION
  | DELETION
deriving DecidableEq, Repr

/-- Modelled from the spec (the `models` module is not part of the sources):
a contiguous 1-based inclusive line range. -/
structure LineRange where
  start : Nat
  end_ : Nat
deriving DecidableEq, Repr

/-- Modelled from the spec (the `models` module is not part of the sources):
a reformat segment: a line range in `patch_contents` coordinates, its
classification, and the replacement lines (empty for DELETION). -/
structure Segment where
  start : Nat
  end_ : Nat
  reformat_type : ReformatType
  formatted_content : List String
deriving DecidableEq, Repr

/-- Modelled from the spec (the `models` module is not part of the sources):
a comment range `(start_line, start_character, end_line, end_character)`. -/
structure CommentRange where
  start_line : Nat
  start_character : Nat
  end_line : Nat
  end_character : Nat
deriving DecidableEq, Repr

/-- Modelled from the spec (the `models` module is not part of the sources):
a positioned review comment. -/
structure CommentInput where
  message : String
  range : CommentRange
deriving DecidableEq, Repr

/-- Modelled from the spec (the `models` module is not part of the sources):
the notify directive of a review payload. -/
inductive NotifyEnum where
  | NONE
  | OWNER
  | OWNER_REVIEWERS
  | ALL
deriving DecidableEq, Repr

/-- Modelled from the spec (the `models` module is not part of the sources):
the review payload: message, comments keyed by filename (insertion order
preserved), vote labels, notify directive. -/
structure ReviewInput where
  message : String
  comments : List (String × List CommentInput)
  labels : List (String × Int)
  notify : NotifyEnum
deriving DecidableEq, Repr

/-- Modelled from the spec (the `models` module is not part of the sources):
one file within a change. `patch_segments` holds the line ranges of
`patch_contents` touched by the patch. -/
structure File where
  filename : String
  base_contents : Option (List String)
  patch_contents : Option (List String)
  patch_segments : List LineRange
  formatted_contents : Option (List String)
  format_segments : List Segment
deriving DecidableEq, Repr

/-- Modelled from the spec (`Segment.format_range` lives in the `models`
module, which is not part of the sources): the target range handed to the
formatter for a patch segment is the segment's own line range. -/
def format_range (r : LineRange) : LineRange := r

/-- Number of occurrences of character `c` on a line (Python `line.count(c)`). -/
def countChar (c : Char) (line : String) : Nat :=
  line.toList.count c

/-- Net brace-level change contributed by one line:
`line.count('\x7b') - line.count('\x7d')`. -/
def braceDelta (line : String) : Int :=
  (countChar '\x7b' line : Int) - (countChar '\x7d' line : Int)

/-- Matcher for `_CLASS_DECLARATION_PATTERN`, the anchored regular expression
`(class|struct) .*;` of `core.py`: the line starts with `class ` or
`struct ` and ends with `;`. -/
def matchClassDeclaration (line : String) : Bool :=
  ("class ".toList.isPrefixOf line.toList || "struct ".toList.isPrefixOf line.toList)
    && ";".toList.isSuffixOf line.toList

/-- Matcher for `_CLASS_DEFINITION_START_PATTERN`, the anchored regular
expression `(class|struct) .*` of `core.py`: the line starts with `class `
or `struct `. -/
def matchClassDefinitionStart (line : String) : Bool :=
  "class ".toList.isPrefixOf line.toList || "struct ".toList.isPrefixOf line.toList

/-- The scanning loop of `get_class_lines_in_file` (lines 143-162 of
`core.py`): `n` is the 1-based number of the current line, `inClass` and
`level` are the loop state. -/
def classScan : Nat → Bool → Int → List String → List Nat
  | _, _, _, [] => []
  | n, false, level, line :: rest =>
    if matchClassDeclaration line then
      classScan (n + 1) false level rest
    else if matchClassDefinitionStart line then
      classScan (n + 1) true (level + braceDelta line) rest
    else
      classScan (n + 1) false level rest
  | n, true, level, line :: rest =>
    if level + braceDelta line = 0 then
      classScan (n + 1) false (level + braceDelta line) rest
    else
      n :: classScan (n + 1) true (level + braceDelta line) rest

/-- Embedding of `get_class_lines_in_file` (`core.py` lines 132-163): the
line numbers lying inside a top-level class/struct body. -/
def get_class_lines_in_file (contents : List String) : List Nat :=
  classScan 1 false 0 contents

/-- The supported-extension alternatives of `EXTENSION_PATTERN`
(`core.py` lines 22-23), `s?vh?` expanded to its four alternatives. -/
def supportedExtensions : List String :=
  ["cpp", "cc", "c++", "cxx", "cppm", "ccm", "cxxm", "c++m", "c", "cl", "h",
   "hh", "hpp", "hxx", "m", "mm", "inc", "js", "ts", "proto", "protodevel",
   "java", "cs", "json", "v", "vh", "sv", "svh"]

/-- Embedding of `re.match(EXTENSION_PATTERN, filename, re.IGNORECASE)`:
the lower-cased filename ends with a dot followed by one of the supported
extensions. -/
def matchesExtension (filename : String) : Bool :=
  supportedExtensions.any fun ext =>
    ("." ++ ext).toList.isSuffixOf (filename.toList.map Char.toLower)

/-- The per-file decision logic of `reformat_change` (`core.py` lines 36-55):
either `none` (the formatter is not invoked for this file) or
`some (contents, ranges)`, the arguments of the `run_clang_format` call. -/
def formatter_request (f : File) : Option (List String × List LineRange) :=
  if matchesExtension f.filename then
    match f.patch_contents with
    | none => none
    | some patch =>
      match f.base_contents with
      | some _ =>
        if f.patch_segments.isEmpty then none
        else some (patch, f.patch_segments.map format_range)
      | none => some (patch, [])
  else
    none

/-- The per-file body of `reformat_change`'s loop (`core.py` lines 36-56):
when the formatter is invoked, `formatted_contents` is set to its result
(`fmt` abstracts `run_clang_format`; `none` means "no reformats"); a skipped
file is left untouched. -/
def process_file (fmt : List String → List LineRange → Option (List String))
    (f : File) : File :=
  match formatter_request f with
  | none => f
  | some (contents, ranges) => { f with formatted_contents := fmt contents ranges }

/-- The loop of `reformat_change` over all files of the change. -/
def reformat_change (fmt : List String → List LineRange → Option (List String))
    (files : List File) : List File :=
  files.map (process_file fmt)

/-- The effective end line of a segment (`core.py` lines 84-90): `start` for
INSERTION, `end` otherwise. -/
def effectiveEnd (seg : Segment) : Nat :=
  match seg.reformat_type with
  | ReformatType.INSERTION => seg.start
  | _ => seg.end_

/-- The line set of a segment used by the class-region suppression check,
`set(range(segment.start, end + 1, 1))` (`core.py` line 92), as the ordered
list `[start, ..., effectiveEnd]`. -/
def segmentLines (seg : Segment) : List Nat :=
  List.range' seg.start (effectiveEnd seg + 1 - seg.start)

/-- The suppression test `len(skip_lines_set & segment_lines_set) > 0`
(`core.py` line 93). -/
def overlapsSkip (skip : List Nat) (seg : Segment) : Bool :=
  (segmentLines seg).any fun x => skip.contains x

/-- The fixed DELETION comment message (`core.py` line 105). -/
def deletionMessage : String :=
  "Suggestion from `haiku-format` is to remove this line/these lines."

/-- The templated INSERTION/MODIFICATION comment message
(`core.py` lines 107-108). -/
def suggestionMessage (operation : String) (content : List String) : String :=
  "Suggestion from `haiku-format` (" ++ operation ++ "):\n```c++\n"
    ++ String.join content ++ "```"

/-- The comment built for one surviving segment (`core.py` lines 103-111):
range `(start, 0, effectiveEnd, 0)`; fixed message for DELETION, templated
message with operation label `insert after` / `change` otherwise. -/
def segmentComment (seg : Segment) : CommentInput :=
  { message :=
      match seg.reformat_type with
      | ReformatType.DELETION => deletionMessage
      | ReformatType.INSERTION => suggestionMessage "insert after" seg.formatted_content
      | ReformatType.MODIFICATION => suggestionMessage "change" seg.formatted_content
    range := { start_line := seg.start, start_character := 0,
               end_line := effectiveEnd seg, end_character := 0 } }

/-- The inner segment loop of `_change_to_review_input` (`core.py` lines
83-111): in order, a suppressed segment contributes a warning
`(filename, segment line set)` and no comment; any other segment contributes
its comment. -/
def process_segments (skip : List Nat) (filename : String) :
    List Segment → List CommentInput × List (String × List Nat)
  | [] => ([], [])
  | seg :: rest =>
    let out := process_segments skip filename rest
    if overlapsSkip skip seg then
      (out.1, (filename, segmentLines seg) :: out.2)
    else
      (segmentComment seg :: out.1, out.2)

/-- Per-file part of `_change_to_review_input` (`core.py` lines 78-111): a
file without formatted contents or without format segments contributes
nothing; otherwise the class-region skip set is computed once from
`patch_contents` and the segment loop runs. Returns the file's comments and
its suppression warnings. -/
def fileOutput (f : File) : List CommentInput × List (String × List Nat) :=
  match f.formatted_contents with
  | none => ([], [])
  | some _ =>
    if f.format_segments.isEmpty then ([], [])
    else
      process_segments (get_class_lines_in_file (f.patch_contents.getD []))
        f.filename f.format_segments

/-- The `comments.setdefault(f.filename, []).extend([...])` update
(`core.py` line 109) on an insertion-ordered association list. -/
def extendAssoc (m : List (String × List CommentInput)) (key : String)
    (c : CommentInput) : List (String × List CommentInput) :=
  match m with
  | [] => [(key, [c])]
  | (k, v) :: rest =>
    if k = key then (k, v ++ [c]) :: rest else (k, v) :: extendAssoc rest key c

/-- One file's contribution to the accumulated comments map and warning
list (`core.py` lines 78-111, outer loop body). -/
def collectStep (acc : List (String × List CommentInput) × List (String × List Nat))
    (f : File) : List (String × List CommentInput) × List (String × List Nat) :=
  let out := fileOutput f
  (out.1.foldl (fun m c => extendAssoc m f.filename c) acc.1, acc.2 ++ out.2)

/-- Accumulation of every file's comments (keyed by filename, insertion
order) and warnings across the whole change. -/
def collectComments (files : List File) :
    List (String × List CommentInput) × List (String × List Nat) :=
  files.foldl collectStep ([], [])

/-- The fixed message used when no comment was produced
(`core.py` line 114). -/
def noChangesMessage : String :=
  "Experimental `haiku-format` bot: no formatting changes suggested for this commit."

/-- The fixed explanatory message used when at least one comment was produced
(`core.py` lines 117-122). -/
def changesMessage : String :=
  "Experimental `haiku-format` bot: some formatting changes suggested.\nNote that this bot is "
    ++ "experimental and the suggestions may not be correct. There is a known issue with changes "
    ++ "in header files: `haiku-format` does not yet correctly output the column layout of the contents "
    ++ "of classes.\n\nYou can see and apply the suggestions by running `haiku-format` in your local "
    ++ "repository. For example, if in your local checkout this change is applied to a local checkout, you "
    ++ "can use the following command to automatically reformat:\n```\ngit-haiku-format HEAD~\n```"

/-- Embedding of `_change_to_review_input` (`core.py` lines 75-125): the
review payload together with the suppression warnings that were logged. -/
def change_to_review_input (files : List File) :
    ReviewInput × List (String × List Nat) :=
  let cw := collectComments files
  if cw.1.isEmpty then
    ({ message := noChangesMessage, comments := cw.1,
       labels := [("Haiku-Format", 1)], notify := NotifyEnum.OWNER }, cw.2)
  else
    ({ message := changesMessage, comments := cw.1,
       labels := [("Haiku-Format", -1)], notify := NotifyEnum.OWNER }, cw.2)

/-! Helper lemmas about the class-region scan. -/

theorem classScan_mem_bounds : ∀ (ls : List String) (n : Nat) (b : Bool) (l : Int)
    (x : Nat), x ∈ classScan n b l ls → n ≤ x ∧ x < n + ls.length := by
  intro ls
  induction ls with
  | nil => intro n b l x h; simp [classScan] at h
  | cons line rest ih =>
    intro n b l x h
    cases b with
    | false =>
      simp only [classScan] at h
      split at h
      · have hb := ih _ _ _ _ h
        simp only [List.length_cons]
        omega
      · split at h
        · have hb := ih _ _ _ _ h
          simp only [List.length_cons]
          omega
        · have hb := ih _ _ _ _ h
          simp only [List.length_cons]
          omega
    | true =>
      simp only [classScan] at h
      split at h
      · have hb := ih _ _ _ _ h
        simp only [List.length_cons]
        omega
      · rcases List.mem_cons.mp h with rfl | h2
        · simp only [List.length_cons]
          omega
        · have hb := ih _ _ _ _ h2
          simp only [List.length_cons]
          omega

theorem classScan_false_mem : ∀ (ls : List String) (n : Nat) (l : Int) (x : Nat),
    x ∈ classScan n false l ls → n + 1 ≤ x := by
  intro ls n l x h
  cases ls with
  | nil => simp [classScan] at h
  | cons line rest =>
    simp only [classScan] at h
    split at h
    · exact (classScan_mem_bounds _ _ _ _ _ h).1
    · split at h
      · exact (classScan_mem_bounds _ _ _ _ _ h).1
      · exact (classScan_mem_bounds _ _ _ _ _ h).1

theorem classScan_pairwise : ∀ (ls : List String) (n : Nat) (b : Bool) (l : Int),
    List.Pairwise (· < ·) (classScan n b l ls) := by
  intro ls
  induction ls with
  | nil => intro n b l; simp [classScan]
  | cons line rest ih =>
    intro n b l
    cases b with
    | false =>
      simp only [classScan]
      split
      · exact ih _ _ _
      · split
        · exact ih _ _ _
        · exact ih _ _ _
    | true =>
      simp only [classScan]
      split
      · exact ih _ _ _
      · refine List.Pairwise.cons ?_ (ih _ _ _)
        intro x hx
        have hb := classScan_mem_bounds _ _ _ _ _ hx
        omega

/-! Helper lemmas about the comment mapper. -/

theorem process_segments_eq (skip : List Nat) (filename : String) :
    ∀ segs : List Segment,
      process_segments skip filename segs
        = ((segs.filter fun s => !overlapsSkip skip s).map segmentComment,
           (segs.filter fun s => overlapsSkip skip s).map
             fun s => (filename, segmentLines s)) := by
  intro segs
  induction segs with
  | nil => rfl
  | cons seg rest ih =>
    cases h : overlapsSkip skip seg <;>
      simp [process_segments, h, ih, List.filter_cons]

theorem extendAssoc_ne_nil (m : List (String × List CommentInput)) (key : String)
    (c : CommentInput) : extendAssoc m key c ≠ [] := by
  cases m with
  | nil => simp [extendAssoc]
  | cons kv rest =>
    obtain ⟨k, v⟩ := kv
    simp only [extendAssoc]
    split <;> simp

theorem foldl_extendAssoc_eq_nil (key : String) :
    ∀ (cs : List CommentInput) (m : List (String × List CommentInput)),
      (cs.foldl (fun m c => extendAssoc m key c) m = []) ↔ (m = [] ∧ cs = []) := by
  intro cs
  induction cs with
  | nil => intro m; simp
  | cons c rest ih =>
    intro m
    simp only [List.foldl_cons, ih]
    constructor
    · rintro ⟨h1, -⟩
      exact absurd h1 (extendAssoc_ne_nil m key c)
    · rintro ⟨-, h2⟩
      exact absurd h2 (by simp)

theorem foldl_collectStep_fst_eq_nil :
    ∀ (files : List File)
      (acc : List (String × List CommentInput) × List (String × List Nat)),
      ((files.foldl collectStep acc).1 = [])
        ↔ (acc.1 = [] ∧ ∀ f ∈ files, (fileOutput f).1 = []) := by
  intro files
  induction files with
  | nil => intro acc; simp
  | cons f rest ih =>
    intro acc
    simp only [List.foldl_cons, ih]
    constructor
    · rintro ⟨h1, h2⟩
      have h3 := (foldl_extendAssoc_eq_nil f.filename (fileOutput f).1 acc.1).mp h1
      refine ⟨h3.1, ?_⟩
      intro g hg
      rcases List.mem_cons.mp hg with rfl | hg2
      · exact h3.2
      · exact h2 g hg2
    · rintro ⟨h1, h2⟩
      refine ⟨?_, fun g hg => h2 g (List.mem_cons_of_mem f hg)⟩
      exact (foldl_extendAssoc_eq_nil f.filename (fileOutput f).1 acc.1).mpr
        ⟨h1, h2 f (List.mem_cons_self f rest)⟩

/-! The claims. -/

/-- C2: the class-region detector is a single forward scan with a boolean
`in_class` and a brace `level`: a definition-start line seen while not
`in_class` starts a region, updates `level` by the line's brace delta, and is
itself never added; while `in_class` each line updates `level`, a line whose
update makes `level` zero ends the region and is not added, and every other
in-class line's number is added; on input
`["struct Foo \x7b", "int x;", "\x7d;"]` the result is exactly `[2]`. -/
theorem c2_class_region_scan :
    (∀ (n : Nat) (level : Int) (line : String) (rest : List String),
        matchClassDeclaration line = false →
        matchClassDefinitionStart line = true →
        classScan n false level (line :: rest)
          = classScan (n + 1) true (level + braceDelta line) rest)
    ∧ (∀ (n : Nat) (level : Int) (ls : List String), n ∉ classScan n false level ls)
    ∧ (∀ (n : Nat) (level : Int) (line : String) (rest : List String),
        classScan n true level (line :: rest)
          = if level + braceDelta line = 0 then
              classScan (n + 1) false (level + braceDelta line) rest
            else
              n :: classScan (n + 1) true (level + braceDelta line) rest)
    ∧ (∀ (n : Nat) (level : Int) (line : String) (rest : List String),
        level + braceDelta line = 0 → n ∉ classScan n true level (line :: rest))
    ∧ get_class_lines_in_file ["struct Foo \x7b", "int x;", "\x7d;"] = [2] := by
  refine ⟨?_, ?_, ?_, ?_, by decide⟩
  · intro n level line rest h1 h2
    simp [classScan, h1, h2]
  · intro n level ls h
    have hb := classScan_false_mem _ _ _ _ h
    omega
  · intro n level line rest
    simp [classScan]
  · intro n level line rest h0 h
    rw [show classScan n true level (line :: rest)
          = classScan (n + 1) false (level + braceDelta line) rest
        from by simp [classScan, h0]] at h
    have hb := classScan_false_mem _ _ _ _ h
    omega

/-- Witness for C2: the scan steps from line 1 of `["struct Foo \x7b"]` into
a class region at level 1. -/
theorem c2_class_region_scan_witness :
    classScan 1 false 0 ["struct Foo \x7b"]
      = classScan 2 true (0 + braceDelta "struct Foo \x7b") [] :=
  c2_class_region_scan.1 1 0 "struct Foo \x7b" [] (by decide) (by decide)

/-- C8: a line matching the declaration pattern `(class|struct) .*;` seen
while not inside a class is skipped entirely: it does not start a class
region, the scan state is unchanged, and the line is never added to the
result; the detector applied to `["struct Foo;"]` returns the empty list. -/
theorem c8_class_declaration_skipped :
    (∀ (n : Nat) (level : Int) (line : String) (rest : List String),
        matchClassDeclaration line = true →
        classScan n false level (line :: rest) = classScan (n + 1) false level rest)
    ∧ (∀ (n : Nat) (level : Int) (ls : List String), n ∉ classScan n false level ls)
    ∧ get_class_lines_in_file ["struct Foo;"] = [] := by
  refine ⟨?_, ?_, by decide⟩
  · intro n level line rest h
    simp [classScan, h]
  · intro n level ls h
    have hb := classScan_false_mem _ _ _ _ h
    omega

/-- Witness for C8: the declaration line `struct Foo;` leaves the scan state
untouched. -/
theorem c8_class_declaration_skipped_witness :
    classScan 1 false 0 ["struct Foo;", "int x;"] = classScan 2 false 0 ["int x;"] :=
  c8_class_declaration_skipped.1 1 0 "struct Foo;" ["int x;"] (by decide)

/-- C10: `get_class_lines_in_file` returns a strictly increasing list of
line numbers, each at least 2 and at most the number of lines; line 1 is
never in the result, and the empty input yields the empty list. -/
theorem c10_class_lines_invariant (contents : List String) :
    List.Pairwise (· < ·) (get_class_lines_in_file contents)
    ∧ (∀ x ∈ get_class_lines_in_file contents, 2 ≤ x ∧ x ≤ contents.length)
    ∧ 1 ∉ get_class_lines_in_file contents
    ∧ get_class_lines_in_file ([] : List String) = [] := by
  have hbnd : ∀ x ∈ get_class_lines_in_file contents, 2 ≤ x ∧ x ≤ contents.length := by
    intro x hx
    have h1 := classScan_false_mem _ _ _ _ hx
    have h2 := classScan_mem_bounds _ _ _ _ _ hx
    omega
  refine ⟨classScan_pairwise _ _ _ _, hbnd, ?_, rfl⟩
  intro h
  have := (hbnd 1 h).1
  omega

/-- Witness for C10: line 2 of the three-line struct example is inside the
bounds stated by the invariant. -/
theorem c10_class_lines_invariant_witness :
    2 ≤ 2 ∧ 2 ≤ (["struct Foo \x7b", "int x;", "\x7d;"] : List String).length :=
  (c10_class_lines_invariant ["struct Foo \x7b", "int x;", "\x7d;"]).2.1 2 (by decide)

/-- C3: a surviving segment's comment has range
`(start_line = start, start_char = 0, end_line = effectiveEnd, end_char = 0)`
with `effectiveEnd = start` for INSERTION and `= end` for MODIFICATION; an
INSERTION anchored at line 5 yields `CommentRange(5, 0, 5, 0)` and a
MODIFICATION spanning lines 3-6 yields `CommentRange(3, 0, 6, 0)`. -/
theorem c3_comment_range_convention (seg : Segment) :
    ((segmentComment seg).range
        = { start_line := seg.start, start_character := 0,
            end_line := effectiveEnd seg, end_character := 0 })
    ∧ (seg.reformat_type = ReformatType.INSERTION → effectiveEnd seg = seg.start)
    ∧ (seg.reformat_type = ReformatType.MODIFICATION → effectiveEnd seg = seg.end_)
    ∧ (∀ (skip : List Nat) (filename : String) (rest : List Segment),
        overlapsSkip skip seg = false →
        process_segments skip filename (seg :: rest)
          = (segmentComment seg :: (process_segments skip filename rest).1,
             (process_segments skip filename rest).2))
    ∧ ((segmentComment
          { start := 5, end_ := 5,
            reformat_type := ReformatType.INSERTION, formatted_content := [] }).range
        = { start_line := 5, start_character := 0, end_line := 5, end_character := 0 })
    ∧ ((segmentComment
          { start := 3, end_ := 6,
            reformat_type := ReformatType.MODIFICATION, formatted_content := [] }).range
        = { start_line := 3, start_character := 0, end_line := 6, end_character := 0 }) := by
  refine ⟨rfl, ?_, ?_, ?_, rfl, rfl⟩
  · intro h
    simp [effectiveEnd, h]
  · intro h
    simp [effectiveEnd, h]
  · intro skip filename rest h
    simp [process_segments, h]

/-- Witness for C3: the effective end of an INSERTION anchored at line 5 is
line 5, the anchor. -/
theorem c3_comment_range_convention_witness :
    effectiveEnd { start := 5, end_ := 9, reformat_type := ReformatType.INSERTION,
                   formatted_content := [] } = 5 :=
  (c3_comment_range_convention
    { start := 5, end_ := 9, reformat_type := ReformatType.INSERTION,
      formatted_content := [] }).2.1 rfl

/-- C9: a DELETION segment keeps its full span `[start, end]` both for the
suppression line set and for the comment range, its message is the fixed
removal suggestion, and message construction is total (no operation label is
consulted on the DELETION path). -/
theorem c9_deletion_segment (seg : Segment)
    (h : seg.reformat_type = ReformatType.DELETION) :
    effectiveEnd seg = seg.end_
    ∧ segmentLines seg = List.range' seg.start (seg.end_ + 1 - seg.start)
    ∧ segmentComment seg
        = { message := deletionMessage,
            range := { start_line := seg.start, start_character := 0,
                       end_line := seg.end_, end_character := 0 } }
    ∧ (∀ skip : List Nat,
        overlapsSkip skip seg
          = (List.range' seg.start (seg.end_ + 1 - seg.start)).any
              fun x => skip.contains x) := by
  have he : effectiveEnd seg = seg.end_ := by
    simp [effectiveEnd, h]
  have hl : segmentLines seg = List.range' seg.start (seg.end_ + 1 - seg.start) := by
    simp [segmentLines, he]
  refine ⟨he, hl, ?_, ?_⟩
  · simp [segmentComment, h, he]
  · intro skip
    simp [overlapsSkip, hl]

/-- Witness for C9: a DELETION spanning lines 2-4 produces the fixed removal
message over the range `(2, 0, 4, 0)`. -/
theorem c9_deletion_segment_witness :
    segmentComment { start := 2, end_ := 4, reformat_type := ReformatType.DELETION,
                     formatted_content := [] }
      = { message := deletionMessage,
          range := { start_line := 2, start_character := 0,
                     end_line := 4, end_character := 0 } } :=
  (c9_deletion_segment
    { start := 2, end_ := 4, reformat_type := ReformatType.DELETION,
      formatted_content := [] } rfl).2.2.1

/-- C5: a file whose name does not match the supported-extension pattern is
never handed to the formatter and is left untouched by the orchestrator;
the match is case-insensitive, e.g. `Foo.CPP` matches. -/
theorem c5_unsupported_extension_skipped :
    (∀ (f : File) (fmt : List String → List LineRange → Option (List String)),
        matchesExtension f.filename = false →
        formatter_request f = none ∧ process_file fmt f = f)
    ∧ matchesExtension "Foo.CPP" = true := by
  constructor
  · intro f fmt h
    have h1 : formatter_request f = none := by
      simp [formatter_request, h]
    exact ⟨h1, by simp [process_file, h1]⟩
  · decide

/-- Witness for C5: `README.md` is skipped. -/
theorem c5_unsupported_extension_skipped_witness :
    formatter_request
        { filename := "README.md", base_contents := none,
          patch_contents := some ["x"], patch_segments := [],
          formatted_contents := none, format_segments := [] } = none
    ∧ process_file (fun _ _ => none)
        { filename := "README.md", base_contents := none,
          patch_contents := some ["x"], patch_segments := [],
          formatted_contents := none, format_segments := [] }
      = { filename := "README.md", base_contents := none,
          patch_contents := some ["x"], patch_segments := [],
          formatted_contents := none, format_segments := [] } :=
  c5_unsupported_extension_skipped.1
    { filename := "README.md", base_contents := none,
      patch_contents := some ["x"], patch_segments := [],
      formatted_contents := none, format_segments := [] }
    (fun _ _ => none) (by decide)

/-- C6: a file deleted by the patch (no `patch_contents`), and a modified
file (some `base_contents`) with an empty `patch_segments` list, are never
handed to the formatter; the file, and in particular its
`formatted_contents`, is left unchanged. -/
theorem c6_deleted_or_deletion_only_skipped (f : File)
    (fmt : List String → List LineRange → Option (List String)) :
    (f.patch_contents = none →
        formatter_request f = none ∧ process_file fmt f = f
        ∧ (process_file fmt f).formatted_contents = f.formatted_contents)
    ∧ (∀ b, f.base_contents = some b → f.patch_segments = [] →
        formatter_request f = none ∧ process_file fmt f = f
        ∧ (process_file fmt f).formatted_contents = f.formatted_contents) := by
  constructor
  · intro hp
    have h1 : formatter_request f = none := by
      by_cases he : matchesExtension f.filename = true
      · simp [formatter_request, he, hp]
      · simp [formatter_request, he]
    have h2 : process_file fmt f = f := by
      simp [process_file, h1]
    exact ⟨h1, h2, by rw [h2]⟩
  · intro b hb hs
    have h1 : formatter_request f = none := by
      by_cases he : matchesExtension f.filename = true
      · cases hp : f.patch_contents with
        | none => simp [formatter_request, he, hp]
        | some patch => simp [formatter_request, he, hp, hb, hs]
      · simp [formatter_request, he]
    have h2 : process_file fmt f = f := by
      simp [process_file, h1]
    exact ⟨h1, h2, by rw [h2]⟩

/-- Witness for C6: a deleted `.cpp` file is skipped and left unchanged. -/
theorem c6_deleted_or_deletion_only_skipped_witness :
    formatter_request
        { filename := "a.cpp", base_contents := some ["x"],
          patch_contents := none, patch_segments := [],
          formatted_contents := none, format_segments := [] } = none
    ∧ process_file (fun _ _ => none)
        { filename := "a.cpp", base_contents := some ["x"],
          patch_contents := none, patch_segments := [],
          formatted_contents := none, format_segments := [] }
      = { filename := "a.cpp", base_contents := some ["x"],
          patch_contents := none, patch_segments := [],
          formatted_contents := none, format_segments := [] }
    ∧ (process_file (fun _ _ => none)
        { filename := "a.cpp", base_contents := some ["x"],
          patch_contents := none, patch_segments := [],
          formatted_contents := none, format_segments := [] }).formatted_contents
      = none :=
  (c6_deleted_or_deletion_only_skipped
    { filename := "a.cpp", base_contents := some ["x"],
      patch_contents := none, patch_segments := [],
      formatted_contents := none, format_segments := [] }
    (fun _ _ => none)).1 rfl

/-- C7: a newly added file (no `base_contents`) with a supported extension is
handed to the formatter with its `patch_contents` and an empty target-range
list; an eligible modified file is handed the ranges of its
`patch_segments`, in order. -/
theorem c7_formatter_target_ranges (f : File) (patch : List String) :
    (f.patch_contents = some patch → f.base_contents = none →
        matchesExtension f.filename = true →
        formatter_request f = some (patch, []))
    ∧ (∀ b, f.patch_contents = some patch → f.base_contents = some b →
        matchesExtension f.filename = true → f.patch_segments ≠ [] →
        formatter_request f = some (patch, f.patch_segments.map format_range)
        ∧ f.patch_segments.map format_range = f.patch_segments) := by
  constructor
  · intro hp hb he
    simp [formatter_request, he, hp, hb]
  · intro b hp hb he hs
    have h1 : f.patch_segments.isEmpty = false := by
      cases h : f.patch_segments with
      | nil => exact absurd h hs
      | cons a t => rfl
    constructor
    · simp [formatter_request, he, hp, hb, h1]
    · exact List.map_id f.patch_segments

/-- Witness for C7: a new two-line file is formatted whole (empty range
list). -/
theorem c7_formatter_target_ranges_witness :
    formatter_request
        { filename := "New.cpp", base_contents := none,
          patch_contents := some ["int main()", "\x7b\x7d"], patch_segments := [],
          formatted_contents := none, format_segments := [] }
      = some (["int main()", "\x7b\x7d"], []) :=
  (c7_formatter_target_ranges
    { filename := "New.cpp", base_contents := none,
      patch_contents := some ["int main()", "\x7b\x7d"], patch_segments := [],
      formatted_contents := none, format_segments := [] }
    ["int main()", "\x7b\x7d"]).1 rfl rfl (by decide)

/-- C1: for a file with formatted contents and a non-empty segment list, the
segments whose line set `[start, ..., effectiveEnd]` meets the class-region
skip set (computed once per file from `patch_contents`) contribute no comment
and exactly one warning naming the file and the line set, and the others
contribute exactly their comment; over the file
`["struct Foo \x7b", "int x;", "\x7d;"]` a MODIFICATION segment spanning
lines 2-2 is discarded with the warning `("Example.cpp", [2])` and a segment
spanning only line 1 is kept. -/
theorem c1_class_region_suppression (f : File) (fc : List String)
    (h1 : f.formatted_contents = some fc) (h2 : f.format_segments ≠ []) :
    ((fileOutput f).1
        = ((f.format_segments.filter fun s =>
            !overlapsSkip (get_class_lines_in_file (f.patch_contents.getD [])) s).map
            segmentComment)
      ∧ (fileOutput f).2
        = ((f.format_segments.filter fun s =>
            overlapsSkip (get_class_lines_in_file (f.patch_contents.getD [])) s).map
            fun s => (f.filename, segmentLines s)))
    ∧ fileOutput
        { filename := "Example.cpp", base_contents := some [],
          patch_contents := some ["struct Foo \x7b", "int x;", "\x7d;"],
          patch_segments := [], formatted_contents := some [],
          format_segments :=
            [{ start := 2, end_ := 2, reformat_type := ReformatType.MODIFICATION,
               formatted_content := ["\tint x;\n"] },
             { start := 1, end_ := 1, reformat_type := ReformatType.MODIFICATION,
               formatted_content := ["struct Foo \x7b\n"] }] }
      = ([segmentComment
            { start := 1, end_ := 1, reformat_type := ReformatType.MODIFICATION,
              formatted_content := ["struct Foo \x7b\n"] }],
         [("Example.cpp", [2])]) := by
  have h3 : f.format_segments.isEmpty = false := by
    cases h : f.format_segments with
    | nil => exact absurd h h2
    | cons a t => rfl
  refine ⟨?_, by decide⟩
  have h4 : fileOutput f
      = process_segments (get_class_lines_in_file (f.patch_contents.getD []))
          f.filename f.format_segments := by
    simp [fileOutput, h1, h3]
  rw [h4, process_segments_eq]
  exact ⟨rfl, rfl⟩

/-- Witness for C1: the suppression characterization at the concrete example
file whose second line lies in a class body. -/
theorem c1_class_region_suppression_witness :
    ((fileOutput
        { filename := "Example.cpp", base_contents := some [],
          patch_contents := some ["struct Foo \x7b", "int x;", "\x7d;"],
          patch_segments := [], formatted_contents := some [],
          format_segments :=
            [{ start := 2, end_ := 2, reformat_type := ReformatType.MODIFICATION,
               formatted_content := ["\tint x;\n"] },
             { start := 1, end_ := 1, reformat_type := ReformatType.MODIFICATION,
               formatted_content := ["struct Foo \x7b\n"] }] }).1
      = (((
          { filename := "Example.cpp", base_contents := some [],
            patch_contents := some ["struct Foo \x7b", "int x;", "\x7d;"],
            patch_segments := [], formatted_contents := some [],
            format_segments :=
              [{ start := 2, end_ := 2, reformat_type := ReformatType.MODIFICATION,
                 formatted_content := ["\tint x;\n"] },
               { start := 1, end_ := 1, reformat_type := ReformatType.MODIFICATION,
                 formatted_content := ["struct Foo \x7b\n"] }] } : File).format_segments.filter
            fun s =>
              !overlapsSkip
                (get_class_lines_in_file ["struct Foo \x7b", "int x;", "\x7d;"]) s).map
          segmentComment)) := by
  have h := (c1_class_region_suppression
    { filename := "Example.cpp", base_contents := some [],
      patch_contents := some ["struct Foo \x7b", "int x;", "\x7d;"],
      patch_segments := [], formatted_contents := some [],
      format_segments :=
        [{ start := 2, end_ := 2, reformat_type := ReformatType.MODIFICATION,
           formatted_content := ["\tint x;\n"] },
         { start := 1, end_ := 1, reformat_type := ReformatType.MODIFICATION,
           formatted_content := ["struct Foo \x7b\n"] }] }
    [] rfl (by decide)).1.1
  exact h

/-- C4: if zero comments were produced across all files the review message is
the fixed "no formatting changes" notice with label `Haiku-Format = +1`; if
at least one comment was produced the message is the fixed explanatory notice
with label `Haiku-Format = -1`; in both cases the notify directive is
OWNER. -/
theorem c4_review_message_and_labels (files : List File) :
    ((∀ f ∈ files, (fileOutput f).1 = []) →
        (change_to_review_input files).1.message = noChangesMessage
        ∧ (change_to_review_input files).1.labels = [("Haiku-Format", 1)])
    ∧ ((∃ f ∈ files, (fileOutput f).1 ≠ []) →
        (change_to_review_input files).1.message = changesMessage
        ∧ (change_to_review_input files).1.labels = [("Haiku-Format", -1)])
    ∧ (change_to_review_input files).1.notify = NotifyEnum.OWNER := by
  have hiff := foldl_collectStep_fst_eq_nil files ([], [])
  refine ⟨?_, ?_, ?_⟩
  · intro hall
    have hnil : (collectComments files).1 = [] := hiff.mpr ⟨rfl, hall⟩
    have hemp : (collectComments files).1.isEmpty = true := by rw [hnil]; rfl
    constructor <;> simp [change_to_review_input, hemp]
  · rintro ⟨f, hf, hne⟩
    have hnonnil : (collectComments files).1 ≠ [] := fun h => hne ((hiff.mp h).2 f hf)
    have hemp : (collectComments files).1.isEmpty = false := by
      cases h : (collectComments files).1 with
      | nil => exact absurd h hnonnil
      | cons a t => rfl
    constructor <;> simp [change_to_review_input, hemp]
  · cases h : (collectComments files).1.isEmpty <;>
      simp [change_to_review_input, h]

/-- Witness for C4: the empty change produces the positive notice and
label. -/
theorem c4_review_message_and_labels_witness :
    (change_to_review_input []).1.message = noChangesMessage
    ∧ (change_to_review_input []).1.labels = [("Haiku-Format", 1)] :=
  (c4_review_message_and_labels []).1 (by simp)

end FormatBot
